import Mathlib

/-
Verification of the EMM inventory stock-take engine.

The development shallowly embeds the core logic of the application:
the CSV tokenizer and ingestion pipeline (AdminDashboard.tsx), the
catalog store queries (utils/db.ts), the scan processor (App.tsx,
handleScan), the merge reconciler and the snapshot restore
(AdminDashboard.tsx).  Strings are Lean strings; the JavaScript string
primitives used by the code (trim, toLowerCase, split, includes) are
re-implemented character by character so that every definition is
executable and kernel-reducible.
-/

namespace Emm

/-! ## JavaScript string primitives -/

/-- Characters removed by the JavaScript `trim` (the whitespace and
line-terminator classes; the uncommon members that this data never
contains are included for completeness). -/
def isJsSpace (c : Char) : Bool :=
  c = ' ' || c = '\t' || c = '\n' || c = '\r' || c = '\x0b' || c = '\x0c' ||
  c = '\u00A0' || c = '\uFEFF'

/-- Drop JS whitespace from both ends of a character list. -/
def trimChars (l : List Char) : List Char :=
  ((l.dropWhile isJsSpace).reverse.dropWhile isJsSpace).reverse

/-- JavaScript `String.prototype.trim`. -/
def jsTrim (s : String) : String := ⟨trimChars s.data⟩

/-- JavaScript `String.prototype.toLowerCase` (ASCII range, which is all
the matching logic relies on). -/
def jsToLower (s : String) : String := ⟨s.data.map Char.toLower⟩

/-- Is `needle` a prefix of `hay`? -/
def isPrefixChars : List Char → List Char → Bool
  | [], _ => true
  | _ :: _, [] => false
  | a :: as, b :: bs => a = b && isPrefixChars as bs

/-- Is `needle` a contiguous infix of `hay`? -/
def isInfixChars (needle : List Char) : List Char → Bool
  | [] => needle.isEmpty
  | hay@(_ :: rest) => isPrefixChars needle hay || isInfixChars needle rest

/-- JavaScript `s.includes(sub)`. -/
def jsIncludes (s sub : String) : Bool := isInfixChars sub.data s.data

/-- Split a character stream at the separators of the regular expression
used by the file readers (a carriage-return/line-feed pair, or a bare
line feed), leftmost alternative first. -/
def splitLinesAux : List Char → List Char → List (List Char)
  | [], cur => [cur]
  | '\r' :: '\n' :: rest, cur => cur :: splitLinesAux rest []
  | '\n' :: rest, cur => cur :: splitLinesAux rest []
  | c :: rest, cur => splitLinesAux rest (cur ++ [c])

/-- `text.split(/\r\n|\n/)` from the upload handlers. -/
def splitLinesJs (s : String) : List String :=
  (splitLinesAux s.data []).map fun l => (⟨l⟩ : String)

/-- Split a character stream at every comma (JavaScript `split(',')`). -/
def splitCommaAux : List Char → List Char → List (List Char)
  | [], cur => [cur]
  | ',' :: rest, cur => cur :: splitCommaAux rest []
  | c :: rest, cur => splitCommaAux rest (cur ++ [c])

/-- JavaScript `s.split(',')`. -/
def jsSplitComma (s : String) : List String :=
  (splitCommaAux s.data []).map fun l => (⟨l⟩ : String)

/-- Join a list of strings with the comma delimiter (`join(',')`). -/
def joinComma : List String → String
  | [] => ""
  | [x] => x
  | x :: rest => x ++ "," ++ joinComma rest

/-! ## Delimited-record tokenizer (`splitCSV`, AdminDashboard.tsx) -/

/-- The character scan of `splitCSV`: outside a quoted span a comma ends
the field (pushed trimmed); a quote toggles the in-quote flag and is kept
in the running field; the trailing field is always pushed at the end. -/
def splitCSVAux : List Char → Bool → List Char → List (List Char)
  | [], _, cur => [trimChars cur]
  | c :: rest, inQuote, cur =>
    if c = '"' then splitCSVAux rest (!inQuote) (cur ++ [c])
    else if c = ',' ∧ inQuote = false then trimChars cur :: splitCSVAux rest inQuote []
    else splitCSVAux rest inQuote (cur ++ [c])

/-- `val.replace of doubled quotes by one quote`, globally, left to right. -/
def collapseQuotes : List Char → List Char
  | '"' :: '"' :: rest => '"' :: collapseQuotes rest
  | c :: rest => c :: collapseQuotes rest
  | [] => []

/-- The per-field post-step of `splitCSV`: a field that starts and ends
with a quote is stripped of them and its doubled quotes are collapsed. -/
def unquoteField (l : List Char) : List Char :=
  if l.head? = some '"' ∧ l.getLast? = some '"' then
    collapseQuotes ((l.drop 1).dropLast)
  else l

/-- `splitCSV` from AdminDashboard.tsx: quote-aware field splitting. -/
def splitCSV (s : String) : List String :=
  (splitCSVAux s.data false []).map fun l => (⟨unquoteField l⟩ : String)

/-- The in-quote flag after scanning a character list, as `splitCSVAux`
tracks it (every quote character toggles it). -/
def quoteState : List Char → Bool → Bool
  | [], q => q
  | c :: rest, q => quoteState rest (if c = '"' then !q else q)

/-! ## Data model (types.ts) -/

/-- One catalog entry (`MasterItem` in types.ts). -/
structure MasterItem where
  PartID : String
  VendorSN : String
  Project : String
  Class : String
  Location : String
  Vendor : String
  VendorPN : String
  CustomerPN : String
  Description : String
deriving DecidableEq

/-- One count event (`InventoryRecord` in types.ts).  `Status` is kept as
a string: the TypeScript union is string-valued and the merge path casts
an arbitrary CSV field into it. -/
structure InventoryRecord where
  id : String
  InventoryDate : Int
  Status : String
  scannedBy : String
  PartID : String
  VendorSN : String
  Project : String
  Class : String
  Location : String
  Vendor : String
  VendorPN : String
  CustomerPN : String
  Description : String
deriving DecidableEq

/-! ## Catalog store (utils/db.ts) -/

/-- Insert-or-replace one item by its primary key `PartID` (the
behaviour of the keyed table that `bulkPut` writes into). -/
def upsertItem (store : List MasterItem) (item : MasterItem) : List MasterItem :=
  if store.any (fun m => m.PartID == item.PartID) then
    store.map fun m => if m.PartID == item.PartID then item else m
  else store ++ [item]

/-- `db.bulkAdd` / `masterItems.bulkPut`: upsert a batch, in order. -/
def bulkPut (store : List MasterItem) (items : List MasterItem) : List MasterItem :=
  items.foldl upsertItem store

/-- `db.findItem`: exact primary-key lookup. -/
def findItem (store : List MasterItem) (partId : String) : Option MasterItem :=
  store.find? fun m => m.PartID == partId

/-! ## Ingestion pipeline (`handleFileUpload`, AdminDashboard.tsx) -/

/-- One data row of the catalog CSV: valid only when field 0 (PartID) is
non-empty; the Description is rebuilt by re-joining every field from
index 8 onward with the delimiter and trimming the result. -/
def parseMasterRow (line : String) : Option MasterItem :=
  let cols := splitCSV line
  if cols.getD 0 "" ≠ "" then
    some {
      PartID := cols.getD 0 ""
      VendorSN := cols.getD 1 ""
      Project := cols.getD 2 ""
      Class := cols.getD 3 ""
      Location := cols.getD 4 ""
      Vendor := cols.getD 5 ""
      VendorPN := cols.getD 6 ""
      CustomerPN := cols.getD 7 ""
      Description := if 8 < cols.length then jsTrim (joinComma (cols.drop 8)) else cols.getD 8 "" }
  else none

/-- The per-line step of the ingestion loop: trim the line, skip it when
blank, otherwise tokenize and validate it. -/
def lineToItem (raw : String) : Option MasterItem :=
  let line := jsTrim raw
  if line = "" then none else parseMasterRow line

/-- The rows accepted by the ingestion loop, header line (index 0)
skipped. -/
def ingestLines (lines : List String) : List MasterItem :=
  (lines.drop 1).filterMap lineToItem

/-- Accumulate rows into batches of the fixed chunk size (1000), the
leftover batch flushed at the end, as the upload loop does. -/
def buildChunks : List MasterItem → List MasterItem → List (List MasterItem)
  | [], cur => if 0 < cur.length then [cur] else []
  | r :: rest, cur =>
    let pushed := cur ++ [r]
    if 1000 ≤ pushed.length then pushed :: buildChunks rest []
    else buildChunks rest pushed

/-- `handleFileUpload` on already-decoded text: clear the store, then
upsert every batch in order; the resulting catalog store. -/
def ingestCatalog (text : String) : List MasterItem :=
  (buildChunks (ingestLines (splitLinesJs text)) []).foldl bulkPut []

/-! ## Scan processor (`handleScan`, App.tsx) -/

/-- Ambient inputs of one scan event: the generated id, the clock, the
selected operator. -/
structure ScanCtx where
  newId : String
  now : Int
  currentUser : String
deriving DecidableEq

/-- Observable outcome of one scan event. -/
inductive ScanResult where
  | noop : ScanResult
  | duplicated : InventoryRecord → ScanResult
  | created : InventoryRecord → ScanResult
deriving DecidableEq

/-- The new record materialized by `handleScan` when the identifier is
not yet in the Record Log: master fields are snapshotted when the
catalog lookup succeeds, left empty otherwise. -/
def mkScanRecord (cx : ScanCtx) (catalog : List MasterItem) (partId : String) : InventoryRecord :=
  let masterItem := findItem catalog partId
  { id := cx.newId
    InventoryDate := cx.now
    Status := if masterItem.isSome then "OK" else "Not Found"
    scannedBy := cx.currentUser
    PartID := partId
    VendorSN := (masterItem.map fun m => m.VendorSN).getD ""
    Project := (masterItem.map fun m => m.Project).getD ""
    Class := (masterItem.map fun m => m.Class).getD ""
    Location := (masterItem.map fun m => m.Location).getD ""
    Vendor := (masterItem.map fun m => m.Vendor).getD ""
    VendorPN := (masterItem.map fun m => m.VendorPN).getD ""
    CustomerPN := (masterItem.map fun m => m.CustomerPN).getD ""
    Description := (masterItem.map fun m => m.Description).getD "" }

/-- `handleScan` from App.tsx: blank guard, Record-Log duplicate check on
the raw identifier, then catalog lookup and prepend of the new record. -/
def handleScan (cx : ScanCtx) (catalog : List MasterItem) (records : List InventoryRecord)
    (partId : String) : ScanResult × List InventoryRecord :=
  if jsTrim partId = "" then (ScanResult.noop, records)
  else
    match records.find? (fun r => r.PartID == partId) with
    | some existingRecord => (ScanResult.duplicated existingRecord, records)
    | none =>
      let newRecord := mkScanRecord cx catalog partId
      (ScanResult.created newRecord, newRecord :: records)

/-- A sequence of scan events applied to a Record Log. -/
def runScans (catalog : List MasterItem) :
    List InventoryRecord → List (ScanCtx × String) → List InventoryRecord
  | records, [] => records
  | records, (cx, s) :: rest => runScans catalog (handleScan cx catalog records s).2 rest

/-! ## Matching engine (`findRelatedItems`, utils/db.ts) -/

/-- Strategy 2 of `findRelatedItems`: the key is the first four
comma-separated segments of the lower-cased, trimmed description; too
short a key yields no result; otherwise a full scan for descriptions
containing the key. -/
def descriptionMatch (store : List MasterItem) (description : String) : List MasterItem :=
  if description ≠ "" ∧ description ≠ "NA" then
    let desc := jsTrim (jsToLower description)
    let parts := (jsSplitComma desc).map jsTrim
    let searchKey := jsToLower (joinComma (parts.take 4))
    if searchKey.length < 3 then []
    else store.filter fun item => jsIncludes (jsToLower item.Description) searchKey
  else []

/-- `findRelatedItems`: vendor-part-number equality first (when the
record has a usable VendorPN and the catalog matches it), description
fallback otherwise, empty set when neither signal is usable. -/
def findRelatedItems (store : List MasterItem) (vendorPN description : String) : List MasterItem :=
  if vendorPN ≠ "" ∧ vendorPN ≠ "NA" ∧ 2 < vendorPN.length then
    let byVendorPN := store.filter fun item => item.VendorPN == vendorPN
    if 0 < byVendorPN.length then byVendorPN
    else descriptionMatch store description
  else descriptionMatch store description

/-! ## Autocomplete search (`searchMasterItems`, utils/db.ts) -/

/-- `searchMasterItems`: below two characters no results; otherwise a
case-insensitive substring scan over PartID and VendorPN, capped at 5. -/
def searchMasterItems (store : List MasterItem) (term : String) : List MasterItem :=
  if term = "" ∨ term.length < 2 then []
  else
    let lower := jsToLower term
    (store.filter fun item =>
      jsIncludes (jsToLower item.PartID) lower || jsIncludes (jsToLower item.VendorPN) lower).take 5

/-! ## Process-wide state and the reconciler (AdminDashboard.tsx) -/

/-- The process-wide mutable state the reconciler touches: the operator
list, the Record Log, and the catalog store. -/
structure AppState where
  users : List String
  records : List InventoryRecord
  catalog : List MasterItem
deriving DecidableEq

/-- Ambient inputs of a merge: the clock, the date parser (`Date.parse`,
`none` for NaN), and the id generator indexed by how many rows were
accepted so far. -/
structure MergeCtx where
  now : Int
  parseDate : String → Option Int
  mkId : Nat → String

/-- One accepted merge row turned into an `InventoryRecord`
(`handleMergeUpload`): column 1 is the PartID, column 0 the date with
fallback to the current time, column 6 the status with fallback "OK",
the description is rebuilt from columns 11 up to the last (exclusive),
and the last column is the operator with fallback "Imported". -/
def parseMergeRow (cx : MergeCtx) (idx : Nat) (cols : List String) : InventoryRecord :=
  { id := cx.mkId idx
    InventoryDate := (if cols.getD 0 "" ≠ "" then cx.parseDate (cols.getD 0 "") else none).getD cx.now
    PartID := cols.getD 1 ""
    VendorSN := cols.getD 2 ""
    Project := cols.getD 3 ""
    Class := cols.getD 4 ""
    Location := cols.getD 5 ""
    Status := if cols.getD 6 "" ≠ "" then cols.getD 6 "" else "OK"
    Vendor := cols.getD 8 ""
    VendorPN := cols.getD 9 ""
    CustomerPN := cols.getD 10 ""
    Description := if 11 < cols.length then jsTrim (joinComma ((cols.drop 11).dropLast)) else cols.getD 11 ""
    scannedBy := if cols.getLastD "" ≠ "" then cols.getLastD "" else "Imported" }

/-- The merge loop over the data lines: blank lines are passed over; a
row whose PartID (column 1) is usable and not in the exclusion set is
accepted and the PartID immediately joins the set; every other row counts
as skipped. -/
def mergeLoop (cx : MergeCtx) : List String → List String → List InventoryRecord →
    Nat → Nat → List InventoryRecord × Nat × Nat
  | [], _, acc, added, skipped => (acc, added, skipped)
  | raw :: rest, seen, acc, added, skipped =>
    let line := jsTrim raw
    if line = "" then mergeLoop cx rest seen acc added skipped
    else
      let cols := splitCSV line
      let partID := cols.getD 1 ""
      if partID ≠ "" ∧ partID ∉ seen then
        mergeLoop cx rest (seen ++ [partID]) (acc ++ [parseMergeRow cx added cols]) (added + 1) skipped
      else mergeLoop cx rest seen acc added (skipped + 1)

/-- The header detection of `handleMergeUpload`: line 0 is skipped when
it starts with a byte-order mark or contains the export header text. -/
def mergeStart (lines : List String) : Nat :=
  if (lines.headD "").data.head? = some '\uFEFF' ∨ jsIncludes (lines.headD "") "盤點日期" then 1 else 0

/-- `handleMergeUpload` on already-decoded text: dedup against the
current Record Log (and against rows already accepted in this file),
append the accepted records, report the added/skipped counts. -/
def handleMergeUpload (cx : MergeCtx) (st : AppState) (text : String) : AppState × Nat × Nat :=
  let lines := splitLinesJs text
  let rows := lines.drop (mergeStart lines)
  let out := mergeLoop cx rows (st.records.map fun r => r.PartID) [] 0 0
  ({ st with records := st.records ++ out.1 }, out.2.1, out.2.2)

/-- A parsed snapshot document: each list is present only when the JSON
field exists and is an array. -/
structure Snapshot where
  users : Option (List String)
  records : Option (List InventoryRecord)
deriving DecidableEq

/-- `handleRestoreSystem`: `none` models a document that failed to
parse (the catch branch: nothing is mutated); otherwise the users list
and the Record Log are each replaced wholesale when present.  The
catalog store is not an input of the replacement at all. -/
def handleRestoreSystem (parsed : Option Snapshot) (st : AppState) : AppState :=
  match parsed with
  | none => st
  | some data =>
    let st1 := match data.users with
      | some us => { st with users := us }
      | none => st
    match data.records with
    | some rs => { st1 with records := rs }
    | none => st1

/-! ## Concrete fixtures used by the closed statements below -/

/-- A fixed scan context. -/
def cx0 : ScanCtx := { newId := "id1", now := 0, currentUser := "u" }

/-- The catalog item of the round-trip property. -/
def m1 : MasterItem :=
  { PartID := "P1", VendorSN := "", Project := "", Class := "", Location := "",
    Vendor := "", VendorPN := "", CustomerPN := "", Description := "Widget A" }

/-- The record materialized when `" P1"` is scanned against a catalog
holding only `"P1"`. -/
def rec1 : InventoryRecord :=
  { id := "id1", InventoryDate := 0, Status := "Not Found", scannedBy := "u",
    PartID := " P1", VendorSN := "", Project := "", Class := "", Location := "",
    Vendor := "", VendorPN := "", CustomerPN := "", Description := "" }

/-- Catalog items sharing the VendorPN "V123". -/
def iA : MasterItem :=
  { PartID := "A", VendorSN := "", Project := "", Class := "", Location := "",
    Vendor := "", VendorPN := "V123", CustomerPN := "", Description := "" }

/-- Second catalog item with VendorPN "V123". -/
def iB : MasterItem :=
  { PartID := "B", VendorSN := "", Project := "", Class := "", Location := "",
    Vendor := "", VendorPN := "V123", CustomerPN := "", Description := "" }

/-- A catalog item with a different VendorPN. -/
def iC : MasterItem :=
  { PartID := "C", VendorSN := "", Project := "", Class := "", Location := "",
    Vendor := "", VendorPN := "W9", CustomerPN := "", Description := "" }

/-- A fixed merge context whose date parser always fails. -/
def mcx0 : MergeCtx := { now := 7, parseDate := fun _ => none, mkId := fun _ => "mid" }

/-- A state with an empty Record Log. -/
def st0 : AppState := { users := ["u"], records := [], catalog := [m1] }

/-- A state whose Record Log already holds one record. -/
def stB : AppState := { users := ["u"], records := [rec1], catalog := [] }

/-! ## Tokenizer lemmas -/

/-- The field scan never returns an empty field list. -/
lemma splitCSVAux_ne_nil (l : List Char) : ∀ (q : Bool) (cur : List Char),
    splitCSVAux l q cur ≠ [] := by
  induction l with
  | nil => intro q cur; simp [splitCSVAux]
  | cons c rest ih =>
    intro q cur
    simp only [splitCSVAux]
    split
    · exact ih _ _
    · split
      · simp
      · exact ih _ _

/-- Appending an unquoted comma appends one empty field. -/
lemma splitCSVAux_append_comma (l : List Char) : ∀ (q : Bool) (cur : List Char),
    quoteState l q = false →
    splitCSVAux (l ++ [',']) q cur = splitCSVAux l q cur ++ [[]] := by
  induction l with
  | nil =>
    intro q cur hq
    have h : q = false := hq
    subst h
    rfl
  | cons c rest ih =>
    intro q cur hq
    have hq' : quoteState rest (if c = '"' then !q else q) = false := hq
    simp only [List.cons_append, splitCSVAux, List.append_eq]
    by_cases hc : c = '"'
    · rw [if_pos hc, if_pos hc]
      exact ih _ _ (by simpa [hc] using hq')
    · rw [if_neg hc, if_neg hc]
      by_cases hcomma : c = ',' ∧ q = false
      · rw [if_pos hcomma, if_pos hcomma]
        rw [ih _ _ (by simpa [hc] using hq')]
        rfl
      · rw [if_neg hcomma, if_neg hcomma]
        exact ih _ _ (by simpa [hc] using hq')

/-- C5: the tokenizer honors quoted delimiters (`a,"b,c",d` gives three
fields), collapses a doubled quote inside a quoted span to one literal
quote (`a,"b""c",d`), and the trailing field after the last unquoted
delimiter is always included, even when empty (the output is never
empty, and a line extended by an unquoted delimiter gains exactly one
empty trailing field). -/
theorem tokenizerQuotes :
    splitCSV "a,\"b,c\",d" = ["a", "b,c", "d"] ∧
    splitCSV "a,\"b\"\"c\",d" = ["a", "b\"c", "d"] ∧
    (∀ s : String, splitCSV s ≠ []) ∧
    (∀ s : String, quoteState s.data false = false →
      splitCSV (s ++ ",") = splitCSV s ++ [""]) := by
  refine ⟨by decide, by decide, ?_, ?_⟩
  · intro s h
    exact splitCSVAux_ne_nil s.data false [] (List.map_eq_nil_iff.mp h)
  · intro s hq
    obtain ⟨l⟩ := s
    show ((splitCSVAux (l ++ [',']) false []).map fun f => (⟨unquoteField f⟩ : String))
      = (splitCSVAux l false []).map (fun f => (⟨unquoteField f⟩ : String)) ++ [""]
    rw [splitCSVAux_append_comma l false [] hq, List.map_append]
    rfl

/-- Witness for the quantified parts of `tokenizerQuotes`. -/
theorem tokenizerQuotesWitness :
    splitCSV "a" ≠ [] ∧ splitCSV ("a" ++ ",") = splitCSV "a" ++ [""] :=
  ⟨tokenizerQuotes.2.2.1 "a", tokenizerQuotes.2.2.2 "a" (by decide)⟩

/-! ## C9: autocomplete search -/

/-- C9: below two characters the search yields nothing; every returned
item matches the term case-insensitively on PartID or VendorPN; and the
result is capped at five items. -/
theorem autocompleteSearch (store : List MasterItem) (term : String) :
    (term.length < 2 → searchMasterItems store term = []) ∧
    (∀ item ∈ searchMasterItems store term,
      jsIncludes (jsToLower item.PartID) (jsToLower term) = true ∨
      jsIncludes (jsToLower item.VendorPN) (jsToLower term) = true) ∧
    (searchMasterItems store term).length ≤ 5 := by
  refine ⟨?_, ?_, ?_⟩
  · intro h
    unfold searchMasterItems
    rw [if_pos (Or.inr h)]
  · intro item hmem
    by_cases hc : term = "" ∨ term.length < 2
    · simp [searchMasterItems, hc] at hmem
    · simp only [searchMasterItems, if_neg hc] at hmem
      have hmem' := List.mem_of_mem_take hmem
      have hp := (List.mem_filter.mp hmem').2
      simpa using hp
  · unfold searchMasterItems
    split
    · simp
    · exact List.length_take_le 5 _

/-- Witness for `autocompleteSearch`. -/
theorem autocompleteSearchWitness :
    searchMasterItems [iA, iB, iC] "v" = [] ∧
    (jsIncludes (jsToLower iA.PartID) (jsToLower "v1") = true ∨
      jsIncludes (jsToLower iA.VendorPN) (jsToLower "v1") = true) :=
  ⟨(autocompleteSearch [iA, iB, iC] "v").1 (by decide),
   (autocompleteSearch [iA, iB, iC] "v1").2.1 iA (by decide)⟩

/-! ## C6: matching engine -/

/-- C6: a usable VendorPN (non-empty, not "NA", longer than two
characters) that matches at least one catalog item returns exactly the
items whose VendorPN is equal to it, without consulting the description
fallback; two catalog items sharing VendorPN "V123" are both returned;
and when neither signal is usable the result is the empty list. -/
theorem relatedItemsStrategy :
    (∀ (store : List MasterItem) (vendorPN description : String),
      vendorPN ≠ "" → vendorPN ≠ "NA" → 2 < vendorPN.length →
      (∃ item ∈ store, item.VendorPN = vendorPN) →
      findRelatedItems store vendorPN description
        = store.filter fun item => item.VendorPN == vendorPN) ∧
    findRelatedItems [iA, iC, iB] "V123" "" = [iA, iB] ∧
    (∀ (store : List MasterItem) (vendorPN description : String),
      (vendorPN = "" ∨ vendorPN = "NA" ∨ vendorPN.length ≤ 2) →
      (description = "" ∨ description = "NA") →
      findRelatedItems store vendorPN description = []) := by
  refine ⟨?_, by decide, ?_⟩
  · intro store vendorPN description h1 h2 h3 hmem
    obtain ⟨item, hitem, hv⟩ := hmem
    have hin : item ∈ store.filter fun it => it.VendorPN == vendorPN :=
      List.mem_filter.mpr ⟨hitem, by simp [hv]⟩
    unfold findRelatedItems
    rw [if_pos ⟨h1, h2, h3⟩, if_pos (List.length_pos_of_mem hin)]
  · intro store vendorPN description hv hd
    have hcond : ¬(vendorPN ≠ "" ∧ vendorPN ≠ "NA" ∧ 2 < vendorPN.length) := by
      rintro ⟨a, b, c⟩
      rcases hv with h | h | h
      · exact a h
      · exact b h
      · omega
    have hdesc : descriptionMatch store description = [] := by
      unfold descriptionMatch
      rw [if_neg]
      rintro ⟨a, b⟩
      rcases hd with h | h
      · exact a h
      · exact b h
    unfold findRelatedItems
    rw [if_neg hcond, hdesc]

/-- Witness for `relatedItemsStrategy`. -/
theorem relatedItemsStrategyWitness :
    findRelatedItems [iA, iC, iB] "V123" "x"
      = List.filter (fun item => item.VendorPN == "V123") [iA, iC, iB] ∧
    findRelatedItems [iA, iC, iB] "NA" "" = [] :=
  ⟨relatedItemsStrategy.1 [iA, iC, iB] "V123" "x" (by decide) (by decide) (by decide)
      ⟨iA, by decide, rfl⟩,
   relatedItemsStrategy.2.2 [iA, iC, iB] "NA" "" (Or.inr (Or.inl rfl)) (Or.inl rfl)⟩

/-! ## C7: snapshot restore -/

/-- C7: restore never touches the catalog store; a document that fails
to parse mutates nothing; and a parsed document with a records list
replaces the Record Log wholesale by that list. -/
theorem restoreReplacesRecords (parsed : Option Snapshot) (st : AppState) :
    (handleRestoreSystem parsed st).catalog = st.catalog ∧
    (parsed = none → handleRestoreSystem parsed st = st) ∧
    (∀ (data : Snapshot) (rs : List InventoryRecord),
      parsed = some data → data.records = some rs →
      (handleRestoreSystem parsed st).records = rs) := by
  refine ⟨?_, ?_, ?_⟩
  · cases parsed with
    | none => rfl
    | some data =>
      cases hus : data.users <;> cases hrs : data.records <;>
        simp [handleRestoreSystem, hus, hrs]
  · rintro rfl
    rfl
  · rintro data rs rfl hrs
    cases hus : data.users <;> simp [handleRestoreSystem, hus, hrs]

/-- Witness for `restoreReplacesRecords`: a snapshot with an empty
records list empties a non-empty Record Log while the catalog is kept. -/
theorem restoreReplacesRecordsWitness :
    (handleRestoreSystem (some { users := none, records := some [] }) stB).catalog
      = stB.catalog ∧
    (handleRestoreSystem (some { users := none, records := some [] }) stB).records = [] :=
  ⟨(restoreReplacesRecords (some { users := none, records := some [] }) stB).1,
   (restoreReplacesRecords (some { users := none, records := some [] }) stB).2.2
      { users := none, records := some [] } [] rfl rfl⟩

/-! ## Scan-processor lemmas -/

/-- The PartID stored on a freshly created scan record is the raw input. -/
@[simp] lemma mkScanRecord_PartID (cx : ScanCtx) (catalog : List MasterItem) (partId : String) :
    (mkScanRecord cx catalog partId).PartID = partId := rfl

/-- Invariant maintained by the Scan Processor over the Record Log:
every PartID occurs at most once, and no stored PartID is blank. -/
def ScanInv (L : List InventoryRecord) : Prop :=
  (∀ p : String, (L.filter fun r => r.PartID == p).length ≤ 1) ∧
  (∀ r ∈ L, jsTrim r.PartID ≠ "")

/-- The empty Record Log satisfies the invariant. -/
lemma scanInv_nil : ScanInv [] :=
  ⟨fun p => by simp, fun r hr => absurd hr (List.not_mem_nil r)⟩

/-- One scan event preserves the invariant. -/
lemma handleScan_scanInv (cx : ScanCtx) (catalog : List MasterItem)
    (L : List InventoryRecord) (s : String) (h : ScanInv L) :
    ScanInv (handleScan cx catalog L s).2 := by
  unfold handleScan
  by_cases htrim : jsTrim s = ""
  · simpa [htrim] using h
  · rw [if_neg htrim]
    cases hf : L.find? (fun r => r.PartID == s) with
    | some r => simpa using h
    | none =>
      have hnot : ∀ r ∈ L, r.PartID ≠ s := by
        intro r hr
        have hr' := List.find?_eq_none.mp hf r hr
        simpa using hr'
      show ScanInv (mkScanRecord cx catalog s :: L)
      refine ⟨?_, ?_⟩
      · intro p
        by_cases hp : s = p
        · subst hp
          have hfil : L.filter (fun r => r.PartID == s) = [] := by
            rw [List.filter_eq_nil_iff]
            intro r hr
            simpa using hnot r hr
          simp [List.filter_cons, hfil]
        · simpa [List.filter_cons, hp] using h.1 p
      · intro r hr
        rcases List.mem_cons.mp hr with hr | hr
        · rw [hr]
          simpa using htrim
        · exact h.2 r hr

/-- A whole scan sequence preserves the invariant. -/
lemma runScans_scanInv (catalog : List MasterItem) :
    ∀ (inputs : List (ScanCtx × String)) (L : List InventoryRecord),
      ScanInv L → ScanInv (runScans catalog L inputs) := by
  intro inputs
  induction inputs with
  | nil => intro L h; exact h
  | cons a rest ih =>
    intro L h
    obtain ⟨cx, s⟩ := a
    exact ih _ (handleScan_scanInv cx catalog L s h)

/-- Under the invariant, scanning a PartID already in the Record Log is
the terminal Duplicate transition: the existing record is returned and
the log is returned untouched. -/
lemma handleScan_duplicated (cx : ScanCtx) (catalog : List MasterItem)
    (L : List InventoryRecord) (p : String) (h : ScanInv L)
    (hm : ∃ r ∈ L, r.PartID = p) :
    ∃ r0 ∈ L, r0.PartID = p ∧
      handleScan cx catalog L p = (ScanResult.duplicated r0, L) := by
  obtain ⟨r, hr, hrp⟩ := hm
  have htrim : jsTrim p ≠ "" := hrp ▸ h.2 r hr
  cases hf : L.find? (fun x => x.PartID == p) with
  | none =>
    exfalso
    have hr' := List.find?_eq_none.mp hf r hr
    simp [hrp] at hr'
  | some r0 =>
    have hmem := List.mem_of_find?_eq_some hf
    have hpid : r0.PartID = p := by simpa using List.find?_some hf
    refine ⟨r0, hmem, hpid, ?_⟩
    unfold handleScan
    rw [if_neg htrim, hf]

/-! ## C1: Record-Log uniqueness and the Duplicate transition -/

/-- C1: after any sequence of scans from the empty Record Log, each
PartID is held by at most one record; and scanning an identifier already
present yields outcome Duplicated carrying an existing record, with the
Record Log returned exactly as it was (so nothing is created, no stored
Status changes, and the size is unchanged). -/
theorem scanDedupInvariant (catalog : List MasterItem) (inputs : List (ScanCtx × String)) :
    (∀ p : String,
      ((runScans catalog [] inputs).filter fun r => r.PartID == p).length ≤ 1) ∧
    (∀ (cx : ScanCtx) (p : String),
      (∃ r ∈ runScans catalog [] inputs, r.PartID = p) →
      ∃ r0 ∈ runScans catalog [] inputs, r0.PartID = p ∧
        handleScan cx catalog (runScans catalog [] inputs) p
          = (ScanResult.duplicated r0, runScans catalog [] inputs)) := by
  have h := runScans_scanInv catalog inputs [] scanInv_nil
  exact ⟨h.1, fun cx p hm => handleScan_duplicated cx catalog _ p h hm⟩

/-- Witness for `scanDedupInvariant`: scan "P1" once, then scanning it
again is reported as a duplicate of the stored record with the log
unchanged. -/
theorem scanDedupInvariantWitness :
    ∃ r0 ∈ runScans [] [] [(cx0, "P1")], r0.PartID = "P1" ∧
      handleScan cx0 [] (runScans [] [] [(cx0, "P1")]) "P1"
        = (ScanResult.duplicated r0, runScans [] [] [(cx0, "P1")]) :=
  (scanDedupInvariant [] [(cx0, "P1")]).2 cx0 "P1" (by decide)

/-! ## C2: record creation for a fresh identifier -/

/-- C2 counterexample: the whitespace-only identifier " " is a non-empty
string that is not in the (empty) Record Log and not in the (empty)
Catalog Store, yet the scan is a no-op and creates no record, where the
claim requires exactly one new record with Status "Not Found". -/
theorem scanBlankInputCounterexample :
    (" " == "") = false ∧
    (jsTrim " " == "") = true ∧
    handleScan cx0 [] [] " " = (ScanResult.noop, []) := by decide

/-- C2 (amended to identifiers that are non-empty after trimming): for a
non-blank identifier not in the Record Log, exactly one record is
created, prepended and returned; when the catalog holds the exact PartID
the record has Status "OK" and carries that item's snapshot fields, and
otherwise it has Status "Not Found" and empty snapshot fields. -/
theorem scanCreatesClassifiedRecord (cx : ScanCtx) (catalog : List MasterItem)
    (records : List InventoryRecord) (partId : String)
    (htrim : jsTrim partId ≠ "") (hnew : ∀ r ∈ records, r.PartID ≠ partId) :
    ∃ nr, handleScan cx catalog records partId = (ScanResult.created nr, nr :: records) ∧
      nr.PartID = partId ∧
      (∀ m, findItem catalog partId = some m →
        nr.Status = "OK" ∧ nr.VendorSN = m.VendorSN ∧ nr.Project = m.Project ∧
        nr.Class = m.Class ∧ nr.Location = m.Location ∧ nr.Vendor = m.Vendor ∧
        nr.VendorPN = m.VendorPN ∧ nr.CustomerPN = m.CustomerPN ∧
        nr.Description = m.Description) ∧
      (findItem catalog partId = none →
        nr.Status = "Not Found" ∧ nr.VendorSN = "" ∧ nr.Project = "" ∧ nr.Class = "" ∧
        nr.Location = "" ∧ nr.Vendor = "" ∧ nr.VendorPN = "" ∧ nr.CustomerPN = "" ∧
        nr.Description = "") := by
  have hf : records.find? (fun r => r.PartID == partId) = none :=
    List.find?_eq_none.mpr fun r hr => by simp [hnew r hr]
  refine ⟨mkScanRecord cx catalog partId, ?_, rfl, ?_, ?_⟩
  · unfold handleScan
    rw [if_neg htrim, hf]
  · intro m hm
    simp [mkScanRecord, hm]
  · intro hm
    simp [mkScanRecord, hm]

/-- Witness for `scanCreatesClassifiedRecord`: a fresh scan of "P1"
against the empty catalog. -/
theorem scanCreatesClassifiedRecordWitness :
    ∃ nr, handleScan cx0 [] [] "P1" = (ScanResult.created nr, nr :: []) ∧
      nr.PartID = "P1" ∧
      (∀ m, findItem [] "P1" = some m →
        nr.Status = "OK" ∧ nr.VendorSN = m.VendorSN ∧ nr.Project = m.Project ∧
        nr.Class = m.Class ∧ nr.Location = m.Location ∧ nr.Vendor = m.Vendor ∧
        nr.VendorPN = m.VendorPN ∧ nr.CustomerPN = m.CustomerPN ∧
        nr.Description = m.Description) ∧
      (findItem [] "P1" = none →
        nr.Status = "Not Found" ∧ nr.VendorSN = "" ∧ nr.Project = "" ∧ nr.Class = "" ∧
        nr.Location = "" ∧ nr.Vendor = "" ∧ nr.VendorPN = "" ∧ nr.CustomerPN = "" ∧
        nr.Description = "") :=
  scanCreatesClassifiedRecord cx0 [] [] "P1" (by decide)
    (fun r hr => absurd hr (List.not_mem_nil r))

/-! ## C3: what the trim is used for -/

/-- C3 counterexample: scanning " P1" against a catalog holding "P1".
The trimmed identifier "P1" is in the catalog, yet the created record
stores the raw PartID " P1" with Status "Not Found" — so the trimmed
identifier is not what the lookup and the stored record use. -/
theorem scanRawIdentifierCounterexample :
    (jsTrim " P1" == "P1") = true ∧
    findItem [m1] (jsTrim " P1") = some m1 ∧
    handleScan cx0 [m1] [] " P1" = (ScanResult.created rec1, [rec1]) ∧
    (rec1.PartID == jsTrim " P1") = false ∧
    (rec1.Status == "OK") = false ∧
    rec1.PartID = " P1" ∧ rec1.Status = "Not Found" := by decide

/-- C3 (amended: the trim is applied only to the emptiness guard): an
identifier that is blank after trimming is a no-op leaving the Record
Log unchanged; any other identifier is processed raw — the duplicate
check, the catalog lookup and the stored PartID all use the untrimmed
input. -/
theorem scanTrimOnlyGuards (cx : ScanCtx) (catalog : List MasterItem)
    (records : List InventoryRecord) (partId : String) :
    (jsTrim partId = "" → handleScan cx catalog records partId = (ScanResult.noop, records)) ∧
    (jsTrim partId ≠ "" →
      (∀ r0, records.find? (fun r => r.PartID == partId) = some r0 →
        handleScan cx catalog records partId = (ScanResult.duplicated r0, records)) ∧
      (records.find? (fun r => r.PartID == partId) = none →
        handleScan cx catalog records partId
          = (ScanResult.created (mkScanRecord cx catalog partId),
              mkScanRecord cx catalog partId :: records) ∧
        (mkScanRecord cx catalog partId).PartID = partId ∧
        (mkScanRecord cx catalog partId).Status
          = if (findItem catalog partId).isSome then "OK" else "Not Found")) := by
  refine ⟨?_, ?_⟩
  · intro h
    unfold handleScan
    rw [if_pos h]
  · intro htrim
    refine ⟨?_, ?_⟩
    · intro r0 hf
      unfold handleScan
      rw [if_neg htrim, hf]
    · intro hf
      refine ⟨?_, rfl, rfl⟩
      unfold handleScan
      rw [if_neg htrim, hf]

/-- Witness for `scanTrimOnlyGuards`: the blank branch on " " and the
creation branch on "P1" against the empty Record Log. -/
theorem scanTrimOnlyGuardsWitness :
    handleScan cx0 [m1] [] " " = (ScanResult.noop, []) ∧
    (handleScan cx0 [m1] [] "P1"
        = (ScanResult.created (mkScanRecord cx0 [m1] "P1"), mkScanRecord cx0 [m1] "P1" :: []) ∧
      (mkScanRecord cx0 [m1] "P1").PartID = "P1" ∧
      (mkScanRecord cx0 [m1] "P1").Status
        = if (findItem [m1] "P1").isSome then "OK" else "Not Found") :=
  ⟨(scanTrimOnlyGuards cx0 [m1] [] " ").1 (by decide),
   (scanTrimOnlyGuards cx0 [m1] [] "P1").2 (by decide) |>.2 (by decide)⟩

/-! ## C4: catalog ingestion -/

/-- The item ingested from the data row "P1,x". -/
def itemP : MasterItem :=
  { PartID := "P1", VendorSN := "x", Project := "", Class := "", Location := "",
    Vendor := "", VendorPN := "", CustomerPN := "", Description := "" }

/-- C4 counterexample: for the data row `P1,b,c,d,e,f,g,h," x",y` the
stored Description is "x,y", while the plain re-join of the fields from
index 8 onward is " x,y" — the code trims the re-joined value, so the
claimed equality with the plain re-join fails. -/
theorem ingestDescriptionTrimCounterexample :
    (findItem (ingestCatalog "h\nP1,b,c,d,e,f,g,h,\" x\",y") "P1").map (fun m => m.Description)
      = some "x,y" ∧
    joinComma ((splitCSV "P1,b,c,d,e,f,g,h,\" x\",y").drop 8) = " x,y" ∧
    ("x,y" == " x,y") = false := by decide

/-- C4 (amended: the Description is the re-join trimmed of surrounding
whitespace): the round trip through ingestion of a row tokenizing to
`P1` with Description `Widget A` and otherwise empty fields is returned
intact by the exact lookup; every ingested row stores field 0 as PartID
and the trimmed delimiter re-join of fields 8 onward as Description; and
a row whose field 0 is empty is skipped without aborting ingestion. -/
theorem ingestDescriptionRejoin :
    findItem (ingestCatalog "h\nP1,,,,,,,,Widget A") "P1" = some m1 ∧
    (∀ (line : String) (item : MasterItem), parseMasterRow line = some item →
      item.PartID = (splitCSV line).getD 0 "" ∧
      item.Description = jsTrim (joinComma ((splitCSV line).drop 8))) ∧
    (∀ (pre post : List String) (bad : String), lineToItem bad = none →
      (pre ++ bad :: post).filterMap lineToItem = (pre ++ post).filterMap lineToItem) ∧
    (∀ raw : String, (splitCSV (jsTrim raw)).getD 0 "" = "" → lineToItem raw = none) := by
  refine ⟨by decide, ?_, ?_, ?_⟩
  · intro line item h
    simp only [parseMasterRow] at h
    by_cases h0 : (splitCSV line).getD 0 "" ≠ ""
    · rw [if_pos h0, Option.some.injEq] at h
      subst h
      refine ⟨rfl, ?_⟩
      by_cases h8 : 8 < (splitCSV line).length
      · simp [h8]
      · have hlen := Nat.le_of_not_lt h8
        show (if 8 < (splitCSV line).length then _ else _) = _
        rw [List.drop_eq_nil_of_le hlen, if_neg h8, List.getD_eq_default _ _ hlen]
        rfl
    · rw [if_neg h0] at h
      exact absurd h (by simp)
  · intro pre post bad hbad
    rw [List.filterMap_append, List.filterMap_append, List.filterMap_cons_none hbad]
  · intro raw h
    simp only [lineToItem]
    by_cases hb : jsTrim raw = ""
    · rw [if_pos hb]
    · rw [if_neg hb]
      simp only [parseMasterRow]
      rw [if_neg (not_not_intro h)]

/-- Witness for `ingestDescriptionRejoin`: the general parts applied to
the concrete rows "P1,x" and ",x". -/
theorem ingestDescriptionRejoinWitness :
    (itemP.PartID = (splitCSV "P1,x").getD 0 "" ∧
      itemP.Description = jsTrim (joinComma ((splitCSV "P1,x").drop 8))) ∧
    (["P1,x"] ++ ",x" :: []).filterMap lineToItem = (["P1,x"] ++ []).filterMap lineToItem ∧
    lineToItem ",x" = none :=
  ⟨ingestDescriptionRejoin.2.1 "P1,x" itemP (by decide),
   ingestDescriptionRejoin.2.2.1 ["P1,x"] [] ",x" (by decide),
   ingestDescriptionRejoin.2.2.2 ",x" (by decide)⟩

/-! ## Merge lemmas -/

/-- The number of records a merge run appends equals the growth of its
added counter. -/
lemma mergeLoop_count (cx : MergeCtx) : ∀ (rows seen : List String)
    (acc : List InventoryRecord) (added skipped : Nat),
    (mergeLoop cx rows seen acc added skipped).1.length + added
      = (mergeLoop cx rows seen acc added skipped).2.1 + acc.length := by
  intro rows
  induction rows with
  | nil =>
    intro seen acc added skipped
    simp [mergeLoop, Nat.add_comm]
  | cons raw rest ih =>
    intro seen acc added skipped
    simp only [mergeLoop]
    by_cases h1 : jsTrim raw = ""
    · rw [if_pos h1]
      exact ih seen acc added skipped
    · rw [if_neg h1]
      by_cases h2 : (splitCSV (jsTrim raw)).getD 1 "" ≠ "" ∧
          (splitCSV (jsTrim raw)).getD 1 "" ∉ seen
      · rw [if_pos h2]
        have h := ih (seen ++ [(splitCSV (jsTrim raw)).getD 1 ""])
          (acc ++ [parseMergeRow cx added (splitCSV (jsTrim raw))]) (added + 1) skipped
        simp only [List.length_append, List.length_cons, List.length_nil] at h
        omega
      · rw [if_neg h2]
        exact ih seen acc added (skipped + 1)

/-- The merge loop keeps the PartIDs of the base log plus the rows it
accepts pairwise distinct, as long as the exclusion set covers them. -/
lemma mergeLoop_nodup (cx : MergeCtx) (base : List InventoryRecord) :
    ∀ (rows seen : List String) (acc : List InventoryRecord) (added skipped : Nat),
      ((base ++ acc).map fun r => r.PartID).Nodup →
      (∀ p ∈ (base ++ acc).map fun r => r.PartID, p ∈ seen) →
      ((base ++ (mergeLoop cx rows seen acc added skipped).1).map fun r => r.PartID).Nodup := by
  intro rows
  induction rows with
  | nil =>
    intro seen acc added skipped h1 h2
    simpa [mergeLoop] using h1
  | cons raw rest ih =>
    intro seen acc added skipped h1 h2
    simp only [mergeLoop]
    by_cases hb : jsTrim raw = ""
    · rw [if_pos hb]
      exact ih seen acc added skipped h1 h2
    · rw [if_neg hb]
      by_cases hc : (splitCSV (jsTrim raw)).getD 1 "" ≠ "" ∧
          (splitCSV (jsTrim raw)).getD 1 "" ∉ seen
      · rw [if_pos hc]
        have hnr : (parseMergeRow cx added (splitCSV (jsTrim raw))).PartID
            = (splitCSV (jsTrim raw)).getD 1 "" := rfl
        have hp : (splitCSV (jsTrim raw)).getD 1 "" ∉ ((base ++ acc).map fun r => r.PartID) :=
          fun hmem => hc.2 (h2 _ hmem)
        apply ih
        · rw [← List.append_assoc, List.map_append, List.nodup_append]
          refine ⟨h1, by simp, ?_⟩
          intro a ha hb'
          simp only [List.map_cons, List.map_nil, List.mem_singleton, hnr] at hb'
          rw [hb'] at ha
          exact hp ha
        · intro p hp'
          rw [← List.append_assoc, List.map_append] at hp'
          rcases List.mem_append.mp hp' with hin | hin
          · exact List.mem_append_left _ (h2 p hin)
          · simp only [List.map_cons, List.map_nil, List.mem_singleton, hnr] at hin
            rw [hin]
            exact List.mem_append_right _ (by simp)
      · rw [if_neg hc]
        exact ih seen acc added (skipped + 1) h1 h2

/-! ## C8: merge row handling -/

/-- C8: a non-blank row whose PartID is in the exclusion set (which
starts as the PartIDs of the current Record Log) adds nothing and bumps
the skipped counter; a non-blank row with a usable, unseen PartID adds
exactly one record carrying that PartID and the parsed date (with
fallback to the current time); and the merge leaves the catalog store
and the user list untouched, appends exactly the accepted records to the
Record Log, and reports the added count as their number. -/
theorem mergeRowHandling :
    (∀ (cx : MergeCtx) (rest : List String) (raw : String) (seen : List String)
        (acc : List InventoryRecord) (added skipped : Nat),
      jsTrim raw ≠ "" →
      (splitCSV (jsTrim raw)).getD 1 "" ∈ seen →
      mergeLoop cx (raw :: rest) seen acc added skipped
        = mergeLoop cx rest seen acc added (skipped + 1)) ∧
    (∀ (cx : MergeCtx) (rest : List String) (raw : String) (seen : List String)
        (acc : List InventoryRecord) (added skipped : Nat),
      jsTrim raw ≠ "" →
      (splitCSV (jsTrim raw)).getD 1 "" ≠ "" →
      (splitCSV (jsTrim raw)).getD 1 "" ∉ seen →
      mergeLoop cx (raw :: rest) seen acc added skipped
        = mergeLoop cx rest (seen ++ [(splitCSV (jsTrim raw)).getD 1 ""])
            (acc ++ [parseMergeRow cx added (splitCSV (jsTrim raw))]) (added + 1) skipped ∧
      (parseMergeRow cx added (splitCSV (jsTrim raw))).PartID
        = (splitCSV (jsTrim raw)).getD 1 "" ∧
      (parseMergeRow cx added (splitCSV (jsTrim raw))).InventoryDate
        = (if (splitCSV (jsTrim raw)).getD 0 "" ≠ ""
            then cx.parseDate ((splitCSV (jsTrim raw)).getD 0 "") else none).getD cx.now) ∧
    (∀ (cx : MergeCtx) (st : AppState) (text : String),
      (handleMergeUpload cx st text).1.catalog = st.catalog ∧
      (handleMergeUpload cx st text).1.users = st.users ∧
      (handleMergeUpload cx st text).1.records
        = st.records ++ (mergeLoop cx ((splitLinesJs text).drop (mergeStart (splitLinesJs text)))
            (st.records.map fun r => r.PartID) [] 0 0).1 ∧
      (handleMergeUpload cx st text).2.1
        = (mergeLoop cx ((splitLinesJs text).drop (mergeStart (splitLinesJs text)))
            (st.records.map fun r => r.PartID) [] 0 0).1.length) := by
  refine ⟨?_, ?_, ?_⟩
  · intro cx rest raw seen acc added skipped h1 h2
    simp only [mergeLoop]
    rw [if_neg h1, if_neg]
    rintro ⟨_, hnot⟩
    exact hnot h2
  · intro cx rest raw seen acc added skipped h1 h2 h3
    refine ⟨?_, rfl, rfl⟩
    simp only [mergeLoop]
    rw [if_neg h1, if_pos ⟨h2, h3⟩]
  · intro cx st text
    refine ⟨rfl, rfl, rfl, ?_⟩
    have h := mergeLoop_count cx
      ((splitLinesJs text).drop (mergeStart (splitLinesJs text)))
      (st.records.map fun r => r.PartID) [] 0 0
    simp only [List.length_nil] at h
    show (mergeLoop cx ((splitLinesJs text).drop (mergeStart (splitLinesJs text)))
        (st.records.map fun r => r.PartID) [] 0 0).2.1
      = (mergeLoop cx ((splitLinesJs text).drop (mergeStart (splitLinesJs text)))
        (st.records.map fun r => r.PartID) [] 0 0).1.length
    omega

/-- Witness for `mergeRowHandling`: the skip step on a row whose PartID
"PX" is already excluded, and the accept step on the same row against an
empty exclusion set. -/
theorem mergeRowHandlingWitness :
    mergeLoop mcx0 ["a,PX"] ["PX"] [] 0 0 = mergeLoop mcx0 [] ["PX"] [] 0 (0 + 1) ∧
    (mergeLoop mcx0 ["a,PX"] [] [] 0 0
        = mergeLoop mcx0 [] ([] ++ [(splitCSV (jsTrim "a,PX")).getD 1 ""])
            ([] ++ [parseMergeRow mcx0 0 (splitCSV (jsTrim "a,PX"))]) (0 + 1) 0 ∧
      (parseMergeRow mcx0 0 (splitCSV (jsTrim "a,PX"))).PartID
        = (splitCSV (jsTrim "a,PX")).getD 1 "" ∧
      (parseMergeRow mcx0 0 (splitCSV (jsTrim "a,PX"))).InventoryDate
        = (if (splitCSV (jsTrim "a,PX")).getD 0 "" ≠ ""
            then mcx0.parseDate ((splitCSV (jsTrim "a,PX")).getD 0 "") else none).getD mcx0.now) :=
  ⟨mergeRowHandling.1 mcx0 [] "a,PX" ["PX"] [] 0 0 (by decide) (by decide),
   mergeRowHandling.2.1 mcx0 [] "a,PX" [] [] 0 0 (by decide) (by decide) (by decide)⟩

/-! ## C10: merge preserves PartID uniqueness -/

/-- C10: a merge into a PartID-unique Record Log yields a PartID-unique
Record Log, because every accepted PartID joins the exclusion set before
the next row is read; concretely, a file repeating the new PartID "PX"
on two rows adds only the first and counts the second as skipped. -/
theorem mergeUniqueness (cx : MergeCtx) (st : AppState) (text : String)
    (h : (st.records.map fun r => r.PartID).Nodup) :
    (((handleMergeUpload cx st text).1.records).map fun r => r.PartID).Nodup ∧
    (handleMergeUpload mcx0 st0 "a,PX\nb,PX").2 = (1, 1) ∧
    (handleMergeUpload mcx0 st0 "a,PX\nb,PX").1.records.map (fun r => r.PartID) = ["PX"] := by
  refine ⟨?_, by decide, by decide⟩
  show ((st.records ++ (mergeLoop cx
      ((splitLinesJs text).drop (mergeStart (splitLinesJs text)))
      (st.records.map fun r => r.PartID) [] 0 0).1).map fun r => r.PartID).Nodup
  apply mergeLoop_nodup
  · simpa using h
  · intro p hp
    simpa using hp

/-- Witness for `mergeUniqueness`: merging into a log already holding
one record keeps the PartIDs pairwise distinct. -/
theorem mergeUniquenessWitness :
    (((handleMergeUpload mcx0 stB "a,PX").1.records).map fun r => r.PartID).Nodup :=
  (mergeUniqueness mcx0 stB "a,PX" (by decide)).1

end Emm
